import Mathlib

/-!
Shallow embedding of the two excerpted psychopy source files:

* `src/psychopy/iohub/devices/eventfilters.py` — the moving-window event
  filter family (`MovingWindowFilter`, `WeightedAverageFilter`,
  `StampFilter`).
* `src/psychopy/visual/target.py` — the compound calibration target
  (`TargetStim`).

Numeric samples are embedded as `Rat` (exact arithmetic); structured device
events are embedded as lists of field values indexed by position, mirroring
the list-form iohub events the Python code manipulates.
-/

namespace PsychoPy

/-- A structured device event, in list form: a sequence of numeric field
values addressed by a fixed integer index (mirrors the list-form iohub
events that `MovingWindowFilter.add` receives). -/
abbrev DevEvent := List Rat

/-! ### Ring buffer

`MovingWindowFilter` stores its numeric window in a `NumPyRingBuffer`
(from `psychopy.iohub.util`, not included under `src/`). -/

/-- Modelled from the spec: `NumPyRingBuffer.append` of the repository's
`psychopy.iohub.util` (not under `src/`).  The spec's `RingBuffer<T>` is a
fixed-capacity circular buffer with append-overwrite-oldest and ordered
(oldest to newest) read-out; the buffer is represented as the list of its
current elements, oldest first. -/
def ringAppend (cap : Nat) (buf : List Rat) (v : Rat) : List Rat :=
  if buf.length < cap then buf ++ [v] else buf.tail ++ [v]

/-- Modelled from the spec: `NumPyRingBuffer.isFull` — true once `cap`
samples have been appended, i.e. once the element list has reached the
fixed capacity. -/
def ringIsFull (cap : Nat) (buf : List Rat) : Bool :=
  buf.length = cap

/-- Modelled from the spec: `NumPyRingBuffer.mean` — the arithmetic mean of
the buffered samples (spec 4.2: "base policy = arithmetic mean of all
buffered samples"). -/
def ringMean (buf : List Rat) : Rat :=
  buf.sum / (buf.length : Rat)

/-- Modelled from the spec: the parallel event buffer is a
`collections.deque` with `maxlen = length`; appending to a full deque
evicts the oldest entry. -/
def dequeAppend (cap : Nat) (evs : List DevEvent) (e : DevEvent) : List DevEvent :=
  if evs.length < cap then evs ++ [e] else evs.tail ++ [e]

/-! ### MovingWindowFilter construction (`MovingWindowFilter.__init__`) -/

/-- The `knot_pos` constructor argument: either a string constant or a
numeric index (the Python code dispatches on `isinstance(knot_pos,
basestring)`). -/
inductive KnotPos where
  | str (s : String)
  | num (i : Int)
deriving DecidableEq

/-- Source `MovingWindowFilter.__init__`: the computation of `self._active_index`
from `knot_pos` and `length`, including its validation: raising
`ValueError` is embedded as `Except.error`. -/
def movingWindowActiveIndex (knotPos : KnotPos) (length : Nat) : Except String Int :=
  match knotPos with
  | .str s =>
    if s = "center" ∧ length % 2 = 0 then
      .error "MovingWindow length must be odd for a centered knot_pos."
    else if s = "center" then
      .ok ((length / 2 : Nat) : Int)
    else if s = "latest" then
      .ok 0
    else if s = "oldest" then
      .ok ((length : Int) - 1)
    else
      .error "MovingWindow knot_pos must be an index or a valid string constant"
  | .num i =>
    if i < 0 ∨ (length : Int) ≤ i then
      .error "MovingWindow knot_pos must be between 0 and length-1."
    else
      .ok i

/-! ### MovingWindowFilter state and `add` -/

/-- The mutable state of a `MovingWindowFilter` instance: `inplace`,
window `length`, `_active_index`, `_event_field_index`, the numeric ring
buffer `_filtering_buffer` (elements oldest first) and the optional
parallel event deque `_events` (`none` when the filter operates on bare
scalars, exactly as `_events = None` in `__init__`). -/
structure MovingWindowFilter where
  inplace : Bool
  length : Nat
  activeIndex : Nat
  eventFieldIndex : Nat
  buffer : List Rat
  events : Option (List DevEvent)
deriving DecidableEq

/-- Executes `self._events[self._active_index][self._event_field_index] = v`:
overwrite the tapped event's filtered field. -/
def setEventField (evs : List DevEvent) (idx fieldIdx : Nat) (v : Rat) : List DevEvent :=
  evs.set idx ((evs.getD idx []).set fieldIdx v)

/-- The input to `MovingWindowFilter.add`: a structured event (the Python
`isinstance(event, (list, tuple))` branch) or a bare scalar. -/
abbrev AddInput := DevEvent ⊕ Rat

/-- The numeric value `add` appends to the ring buffer for a given input:
the configured field of a structured event, or the bare scalar itself. -/
def MovingWindowFilter.inputValue (f : MovingWindowFilter) : AddInput → Rat
  | .inl e => (e.get? f.eventFieldIndex).getD 0
  | .inr v => v

/-- Source `MovingWindowFilter.add`.  Here `fv` is the (dynamically dispatched)
`filteredValue` method, as a function of the ring buffer contents.
Returns the updated filter state and the optional
`(tapped_event_or_None, filtered_value)` output; the Python
`AttributeError` raised when a structured event arrives while
`_events is None` is embedded as `Except.error`. -/
def MovingWindowFilter.add (fv : List Rat → Rat) (f : MovingWindowFilter) :
    AddInput → Except String (MovingWindowFilter × Option (Option DevEvent × Rat))
  | .inl e =>
    match f.events with
    | none => .error "AttributeError: NoneType object has no attribute append"
    | some evs =>
      let buf := ringAppend f.length f.buffer ((e.get? f.eventFieldIndex).getD 0)
      let evs1 := dequeAppend f.length evs e
      if ringIsFull f.length buf then
        let v := fv buf
        let evs2 := if f.inplace then setEventField evs1 f.activeIndex f.eventFieldIndex v else evs1
        .ok ({ f with buffer := buf, events := some evs2 },
             some (some (evs2.getD f.activeIndex []), v))
      else
        .ok ({ f with buffer := buf, events := some evs1 }, none)
  | .inr x =>
    let buf := ringAppend f.length f.buffer x
    if ringIsFull f.length buf then
      .ok ({ f with buffer := buf }, some (none, fv buf))
    else
      .ok ({ f with buffer := buf }, none)

/-- The base-class `MovingWindowFilter.filteredValue`: the mean of the
window (`self._filtering_buffer.mean()`). -/
def movingWindowFilteredValue (buf : List Rat) : Rat := ringMean buf

/-- Feed a sequence of bare scalars through a base `MovingWindowFilter`
of window length `L`, collecting the per-submission results (`none` when
`add` returned nothing). -/
def mwRunScalar (L : Nat) (buf : List Rat) :
    List Rat → List (Option (Option DevEvent × Rat))
  | [] => []
  | v :: vs =>
    match MovingWindowFilter.add movingWindowFilteredValue
        ⟨false, L, 0, 0, buf, none⟩ (.inr v) with
    | .error _ => []
    | .ok (f', out) => out :: mwRunScalar L f'.buffer vs

/-! ### WeightedAverageFilter -/

/-- Source `WeightedAverageFilter.__init__`: the window length is forced to the
number of supplied weights. -/
def weightedAverageLength (weights : List Rat) : Nat := weights.length

/-- Source `WeightedAverageFilter.__init__`: `self._weights = weights /
np.sum(weights)`. -/
def weightedAverageWeights (weights : List Rat) : List Rat :=
  weights.map (fun w => w / weights.sum)

/-- Pointwise product-sum of two equal-length lists. -/
def dotProduct (a b : List Rat) : Rat :=
  ((a.zip b).map (fun p => p.1 * p.2)).sum

/-- Source `WeightedAverageFilter.filteredValue`:
`np.convolve(buffer, self._weights, 'valid')` for two equal-length arrays
is the single scalar `sum_m buffer[m] * weights[n-1-m]`, i.e. the dot
product of the buffer with the reversed normalized weights. -/
def weightedAverageFilteredValue (weights : List Rat) (buf : List Rat) : Rat :=
  dotProduct buf (weightedAverageWeights weights).reverse

/-! ### StampFilter -/

/-- The level-1 `StampFilter.filteredValue` computation on the window
read-out `e1, e2, e3 = self._filtering_buffer[0:3]` (oldest to newest):
`if not(e1 < e2 and e2 < e3) or not (e3 < e2 and e2 < e1): return
(e1+e3)/2.0` else `return e2`, transcribed verbatim. -/
def stampBaseFilteredValue : List Rat → Rat
  | e1 :: e2 :: e3 :: _ =>
    if ¬(e1 < e2 ∧ e2 < e3) ∨ ¬(e3 < e2 ∧ e2 < e1) then (e1 + e3) / 2 else e2
  | _ => 0

/-- The state of a (possibly cascaded) `StampFilter`: window length 3,
`knot_pos = 'center'` (active index 1), a numeric buffer, an event deque,
and — for `level > 1` — a nested sub-filter (`self.sub_filter`).
`leaf` is a filter with `sub_filter = None`. -/
inductive StampState where
  | leaf (buffer : List Rat) (events : List DevEvent)
  | node (buffer : List Rat) (events : List DevEvent) (sub : StampState)
deriving DecidableEq

/-- Source `StampFilter.__init__` with `level = n`: a chain of `level` nested
instances, each with an empty window. -/
def stampInit : Nat → StampState
  | 0 => .leaf [] []
  | 1 => .leaf [] []
  | n + 2 => .node [] [] (stampInit (n + 1))

/-- Source `StampFilter.filteredValue`: delegates to the sub-filter when one
exists, otherwise applies the 3-tap computation to its own window. -/
def stampFilteredValue : StampState → Rat
  | .leaf buf _ => stampBaseFilteredValue buf
  | .node _ _ sub => stampFilteredValue sub

/-- Source `StampFilter.add`, in structured-event mode (the filter is configured
with an `event_type`/`event_field_name` pair, so `_events` is a deque).
When a sub-filter exists, the event is first passed to it; if the
sub-filter produced an output, the sub's filtered value is appended to
this filter's numeric buffer and the raw event to its deque.  Then —
unconditionally — `MovingWindowFilter.add(self, event)` runs on the raw
event.  Nested instances are constructed with `inplace=False`. -/
def stampAdd (inplace : Bool) (fieldIdx : Nat) :
    StampState → DevEvent → Except String (StampState × Option (Option DevEvent × Rat))
  | .leaf buf evs, e =>
    match MovingWindowFilter.add stampBaseFilteredValue
        ⟨inplace, 3, 1, fieldIdx, buf, some evs⟩ (.inl e) with
    | .error s => .error s
    | .ok (f', out) => .ok (.leaf f'.buffer (f'.events.getD []), out)
  | .node buf evs sub, e =>
    match stampAdd false fieldIdx sub e with
    | .error s => .error s
    | .ok (sub', subRes) =>
      let be : List Rat × List DevEvent :=
        match subRes with
        | some r => (ringAppend 3 buf r.2, dequeAppend 3 evs e)
        | none => (buf, evs)
      match MovingWindowFilter.add (fun _ => stampFilteredValue sub')
          ⟨inplace, 3, 1, fieldIdx, be.1, some be.2⟩ (.inl e) with
      | .error s => .error s
      | .ok (f', out) => .ok (.node f'.buffer (f'.events.getD []) sub', out)

/-- Feed a sequence of structured events through a `StampFilter`
(field index `fieldIdx`, top-level `inplace = False`, the constructor
default), collecting the per-submission results. -/
def stampRun (fieldIdx : Nat) (s : StampState) :
    List DevEvent → List (Option (Option DevEvent × Rat))
  | [] => []
  | e :: es =>
    match stampAdd false fieldIdx s e with
    | .error _ => []
    | .ok (s', out) => out :: stampRun fieldIdx s' es

/-! ### Calibration target (`src/psychopy/visual/target.py`) -/

/-- Modelled from the spec: the external graphics shape primitive
(`ShapeStim` of `psychopy.visual.shape`, not under `src/`), which per
spec section 6 exposes `vertices`, `size`, `lineWidth`, `fillColor` and
`borderColor` as plain stored attributes.  `vertices` keeps the symbolic
contour name the target code assigns; colors are opaque optional values. -/
structure ShapeStim where
  size : Rat × Rat
  vertices : String
  lineWidth : Rat
  fillColor : Option String
  borderColor : Option String
deriving DecidableEq

/-- The state of a `TargetStim`: it *is* a `ShapeStim` (the outer circle,
created by the `ShapeStim.__init__` call), plus the `self.inner` shape,
the `_style` attribute written by the `style` setter, and the `_scale`
attribute written by the `scale` setter (`none` until first set, the
getter then reports 1). -/
structure TargetStim where
  outer : ShapeStim
  inner : ShapeStim
  styleVal : String
  scaleVal : Option Rat
deriving DecidableEq

namespace TargetStim

/-- Source `TargetStim.radius` getter: `sum(self.size) / 2`. -/
def radius (t : TargetStim) : Rat :=
  (t.outer.size.1 + t.outer.size.2) / 2

/-- Source `TargetStim.radius` setter: `self.size = (value*2, value*2)`. -/
def setRadius (t : TargetStim) (value : Rat) : TargetStim :=
  { t with outer.size := (value * 2, value * 2) }

/-- Source `TargetStim.innerRadius` getter: `sum(self.inner.size) / 2`. -/
def innerRadius (t : TargetStim) : Rat :=
  (t.inner.size.1 + t.inner.size.2) / 2

/-- Source `TargetStim.innerRadius` setter: `self.inner.size = (value*2, value*2)`. -/
def setInnerRadius (t : TargetStim) (value : Rat) : TargetStim :=
  { t with inner.size := (value * 2, value * 2) }

/-- Source `TargetStim.scale` getter: `self._scale` if set, else 1. -/
def scale (t : TargetStim) : Rat :=
  t.scaleVal.getD 1

/-- Source `TargetStim.scale` setter: rescales both radii via the `radius` /
`innerRadius` properties relative to the previously stored factor, then
stores the new factor. -/
def setScale (t : TargetStim) (newScale : Rat) : TargetStim :=
  let oldScale := t.scale
  let t1 := t.setRadius (t.radius / oldScale * newScale)
  let t2 := t1.setInnerRadius (t1.innerRadius / oldScale * newScale)
  { t2 with scaleVal := some newScale }

/-- Source `TargetStim.style` setter: stores `_style = value` unconditionally,
then dispatches on the recognized names to update the two shapes'
vertices; any other value falls through with no further effect. -/
def setStyle (t : TargetStim) (value : String) : TargetStim :=
  let t1 := { t with styleVal := value }
  if value = "circles" then
    { t1 with outer.vertices := "circle", inner.vertices := "circle" }
  else if value = "cross" then
    { t1 with outer.vertices := "circle", inner.vertices := "cross" }
  else
    t1

/-- The Python truthiness fallback `innerLineWidth or lineWidth` used in
`TargetStim.__init__`: `None` and `0` are falsy. -/
def pyOrLineWidth (innerLineWidth : Option Rat) (lineWidth : Rat) : Rat :=
  match innerLineWidth with
  | none => lineWidth
  | some w => if w = 0 then lineWidth else w

/-- Source `TargetStim.__init__`: builds the outer shape (vertices `"circle"`,
size `(radius*2, radius*2)`), the inner shape (vertices `"circle"`, size
`(innerRadius*2, innerRadius*2)`, line width `innerLineWidth or
lineWidth`), then runs the `style` setter with the given style. -/
def init (style : String) (radius : Rat) (fillColor borderColor : Option String)
    (lineWidth : Rat) (innerRadius : Rat) (innerFillColor innerBorderColor : Option String)
    (innerLineWidth : Option Rat) : TargetStim :=
  let outer : ShapeStim :=
    ⟨(radius * 2, radius * 2), "circle", lineWidth, fillColor, borderColor⟩
  let inner : ShapeStim :=
    ⟨(innerRadius * 2, innerRadius * 2), "circle",
      pyOrLineWidth innerLineWidth lineWidth, innerFillColor, innerBorderColor⟩
  setStyle ⟨outer, inner, "", none⟩ style

/-- A serialized field value produced by `TargetStim.__iter__`: a number
(diameters, stroke widths) or a color. -/
inductive FieldVal where
  | num (r : Rat)
  | col (c : Option String)
deriving DecidableEq

/-- Source `TargetStim.__iter__`: the ordered key/value sequence the target
serializes to (ioHub format).  Note both stroke-width entries read
`self.lineWidth`, i.e. the outer shape's line width. -/
def toPairs (t : TargetStim) : List (String × FieldVal) :=
  [("outer_diameter", .num (t.radius * 2)),
   ("outer_stroke_width", .num t.outer.lineWidth),
   ("outer_fill_color", .col t.outer.fillColor),
   ("outer_line_color", .col t.outer.borderColor),
   ("inner_diameter", .num (t.innerRadius * 2)),
   ("inner_stroke_width", .num t.outer.lineWidth),
   ("inner_fill_color", .col t.inner.fillColor),
   ("inner_line_color", .col t.inner.borderColor)]

end TargetStim

/-- A `TargetStim` built with the constructor's default arguments
(`style="circles"`, `radius=.05`, `lineWidth=2`, `innerRadius=.01`,
`innerLineWidth=None`). -/
def defaultTarget : TargetStim :=
  TargetStim.init "circles" (1/20) (some "default_fill") (some "white") 2
    (1/100) (some "red") none none

/-- A `TargetStim` built with `lineWidth=2` and the explicit (falsy)
argument `innerLineWidth=0`. -/
def zeroInnerLineWidthTarget : TargetStim :=
  TargetStim.init "circles" (1/20) none (some "white") 2 (1/100) (some "red")
    none (some 0)

/-- The last (at most) `L` elements of `p`: the contents of a capacity-`L`
ring buffer after appending all of `p`, in order, starting empty. -/
def lastWindow (L : Nat) (p : List Rat) : List Rat :=
  p.drop (p.length - L)

/-! ## Supporting lemmas -/

theorem lastWindow_length (L : Nat) (p : List Rat) :
    (lastWindow L p).length = min p.length L := by
  simp only [lastWindow, List.length_drop]
  omega

theorem ringAppend_lastWindow (L : Nat) (hL : 1 ≤ L) (p : List Rat) (v : Rat) :
    ringAppend L (lastWindow L p) v = lastWindow L (p ++ [v]) := by
  unfold ringAppend lastWindow
  by_cases h : p.length < L
  · have h0 : p.length - L = 0 := Nat.sub_eq_zero_of_le (Nat.le_of_lt h)
    have h1 : (p ++ [v]).length - L = 0 := by
      rw [List.length_append]; simp; omega
    rw [h0, h1, List.drop_zero, List.drop_zero, if_pos h]
  · have hle : L ≤ p.length := Nat.le_of_not_lt h
    have hlen : (p.drop (p.length - L)).length = L := by
      rw [List.length_drop]; omega
    rw [if_neg (by rw [hlen]; omega), List.tail_drop]
    have h2 : (p ++ [v]).length - L = (p.length - L) + 1 := by
      rw [List.length_append]; simp; omega
    rw [h2, List.drop_append_of_le_length (by omega)]

theorem mwRunScalar_cons (L : Nat) (buf : List Rat) (v : Rat) (vs : List Rat) :
    mwRunScalar L buf (v :: vs) =
      (if ringIsFull L (ringAppend L buf v)
        then some (none, ringMean (ringAppend L buf v)) else none)
        :: mwRunScalar L (ringAppend L buf v) vs := by
  cases hfull : ringIsFull L (ringAppend L buf v) <;>
    simp [mwRunScalar, MovingWindowFilter.add, movingWindowFilteredValue, hfull]

theorem mwRunScalar_spec (L : Nat) (hL : 1 ≤ L) :
    ∀ (vs p : List Rat) (i : Nat), i < vs.length →
      (mwRunScalar L (lastWindow L p) vs).get? i =
        some (if L ≤ (p ++ vs.take (i + 1)).length
          then some (none, ringMean (lastWindow L (p ++ vs.take (i + 1))))
          else none) := by
  intro vs
  induction vs with
  | nil => intro p i hi; simp at hi
  | cons v rest ih =>
    intro p i hi
    rw [mwRunScalar_cons, ringAppend_lastWindow L hL]
    cases i with
    | zero =>
      rw [List.get?_cons_zero]
      have htake : (v :: rest).take 1 = [v] := rfl
      rw [htake]
      by_cases hfull : L ≤ (p ++ [v]).length
      · have ht : ringIsFull L (lastWindow L (p ++ [v])) = true := by
          simp only [ringIsFull, decide_eq_true_eq, lastWindow_length]
          rw [List.length_append] at hfull ⊢
          simp at hfull ⊢
          omega
        rw [if_pos ht, if_pos hfull]
      · have ht : ¬ (ringIsFull L (lastWindow L (p ++ [v])) = true) := by
          simp only [ringIsFull, decide_eq_true_eq, lastWindow_length]
          rw [List.length_append] at hfull ⊢
          simp at hfull ⊢
          omega
        rw [if_neg ht, if_neg hfull]
    | succ j =>
      rw [List.get?_cons_succ]
      have hj : j < rest.length := by
        simp only [List.length_cons] at hi; omega
      have hstep := ih (p ++ [v]) j hj
      rw [hstep]
      have hlist : (p ++ [v]) ++ rest.take (j + 1) = p ++ (v :: rest).take (j + 1 + 1) := by
        rw [List.take_succ_cons, ← List.append_cons]
      rw [hlist]

/-! ## Claim theorems -/

/-- Claim C1.  The code contradicts the claim (and the filter's own
docstring): the guard `not(e1 < e2 and e2 < e3) or not (e3 < e2 and e2 <
e1)` is a disjunction of negations of two conditions that can never hold
together, so it is always true and `filteredValue` always returns
`(e1+e3)/2`.  On the strictly increasing window `(1, 2, 4)` the level-1
Stampe filter returns `5/2`, not the middle sample `2` the claim
requires. -/
theorem C1_stampe_monotonic_window_bug :
    ((1 : Rat) < 2 ∧ (2 : Rat) < 4) ∧
    stampBaseFilteredValue [1, 2, 4] = 5 / 2 ∧
    stampBaseFilteredValue [1, 2, 4] ≠ 2 := by
  norm_num [stampBaseFilteredValue]

/-- Claim C2.  The code contradicts the claim: the `radius` getter is
`sum(self.size)/2` while the setter stores `size = (value*2, value*2)`,
so setting the radius to 1 and reading it back yields 2, not 1 (and the
getter is the sum — not the average — of the half-width and half-height;
on the freshly constructed default target, whose construction radius is
1/20, it already reads 1/10). -/
theorem C2_radius_roundtrip_bug :
    (defaultTarget.setRadius 1).radius = 2 ∧ ((2 : Rat) ≠ 1) ∧
    defaultTarget.radius = 1 / 10 := by
  norm_num [defaultTarget, TargetStim.init, TargetStim.setStyle, TargetStim.setRadius,
    TargetStim.radius]

/-- Claim C3.  The code contradicts the claim: because the `radius`
getter returns twice the stored half-size (see C2), `set_scale(2.0)`
from the default scale of 1 quadruples the observable `radius` and
`innerRadius` of the default target (1/10 to 2/5 and 1/50 to 2/25)
instead of doubling them. -/
theorem C3_set_scale_quadruples :
    defaultTarget.radius = 1 / 10 ∧
    defaultTarget.innerRadius = 1 / 50 ∧
    (defaultTarget.setScale 2).radius = 2 / 5 ∧
    (defaultTarget.setScale 2).innerRadius = 2 / 25 ∧
    ((2 : Rat) / 5 ≠ 2 * (1 / 10)) ∧
    ((2 : Rat) / 25 ≠ 2 * (1 / 50)) := by
  norm_num [defaultTarget, TargetStim.init, TargetStim.setStyle, TargetStim.setScale,
    TargetStim.setRadius, TargetStim.setInnerRadius, TargetStim.radius,
    TargetStim.innerRadius, TargetStim.scale]

/-- Claim C4.  The code contradicts the claim: `StampFilter.add` invokes
`MovingWindowFilter.add(self, event)` unconditionally, so every raw
sample is appended to the level-2 window as well, which therefore fills
after three submissions; feeding the three events `[1], [2], [3]`
(field index 0) into a level-2 Stampe filter produces a filtered output
already on the third submission, not the fifth. -/
theorem C4_level2_outputs_on_third_submission :
    stampRun 0 (stampInit 2) [[1], [2], [3]] =
      [none, none, some (some [3], 2)] := by
  norm_num [stampRun, stampAdd, stampInit, stampFilteredValue, stampBaseFilteredValue,
    MovingWindowFilter.add, ringAppend, ringIsFull, dequeAppend, setEventField,
    movingWindowFilteredValue, ringMean]

/-- Claim C5: for every window length `L ≥ 1` and every bare-scalar
sample sequence, `MovingWindowFilter.add` returns nothing on each of the
first `L-1` submissions, and on every submission from the `L`-th onward
returns `(None, v)` with `v` the arithmetic mean of the `L` most recently
appended samples. -/
theorem C5_moving_mean_window (L : Nat) (hL : 1 ≤ L) (samples : List Rat)
    (i : Nat) (hi : i < samples.length) :
    (i + 1 < L → (mwRunScalar L [] samples).get? i = some none) ∧
    (L ≤ i + 1 → (mwRunScalar L [] samples).get? i =
      some (some (none,
        ((samples.take (i + 1)).drop (i + 1 - L)).sum / ((L : Nat) : Rat)))) := by
  have hbuf : (mwRunScalar L [] samples) = mwRunScalar L (lastWindow L []) samples := by
    simp [lastWindow]
  have hspec := mwRunScalar_spec L hL samples [] i hi
  rw [List.nil_append] at hspec
  rw [hbuf, hspec]
  have hlen : (samples.take (i + 1)).length = i + 1 := by
    rw [List.length_take]; omega
  constructor
  · intro hlt
    rw [if_neg (by rw [hlen]; omega)]
  · intro hge
    rw [if_pos (by rw [hlen]; omega)]
    have hdlen : ((samples.take (i + 1)).drop (i + 1 - L)).length = L := by
      rw [List.length_drop, hlen]; omega
    simp only [lastWindow, hlen, ringMean, hdlen]

/-- Witness for C5 at `L = 2`, samples `[1, 3, 5]`, `i = 2`: the third
submission returns the mean `4` of the last two samples. -/
theorem C5_moving_mean_window_witness :
    1 ≤ 2 ∧ (2 : Nat) ≤ 2 + 1 ∧
    (mwRunScalar 2 [] [1, 3, 5]).get? 2 =
      some (some (none,
        ((([1, 3, 5] : List Rat).take (2 + 1)).drop (2 + 1 - 2)).sum / ((2 : Nat) : Rat))) :=
  ⟨by decide, by decide,
    (C5_moving_mean_window 2 (by decide) [1, 3, 5] 2 (by decide)).2 (by decide)⟩

/-- Counterexample for Claim C7: `set_style` stores `self._style = value`
before dispatching on the recognized names, so after `set_style("bogus")`
on a target whose style was the valid `"circles"`, the observable style
is `"bogus"`, not the last valid style. -/
theorem C7_unrecognized_style_counterexample :
    defaultTarget.styleVal = "circles" ∧
    (defaultTarget.setStyle "bogus").styleVal = "bogus" ∧
    (defaultTarget.setStyle "bogus").styleVal ≠ defaultTarget.styleVal := by
  decide

/-- Claim C7 as amended: calling `set_style` with an unrecognized value
raises no error and leaves both shapes' vertices unchanged, but the
observable style becomes the unrecognized value instead of remaining the
last valid style. -/
theorem C7_unrecognized_style_amended (t : TargetStim) (v : String)
    (h1 : v ≠ "circles") (h2 : v ≠ "cross") :
    (t.setStyle v).outer.vertices = t.outer.vertices ∧
    (t.setStyle v).inner.vertices = t.inner.vertices ∧
    (t.setStyle v).styleVal = v := by
  simp [TargetStim.setStyle, h1, h2]

/-- Witness for the amended C7 at the default target and the
unrecognized style value `"bogus"`. -/
theorem C7_unrecognized_style_amended_witness :
    (defaultTarget.setStyle "bogus").outer.vertices = defaultTarget.outer.vertices ∧
    (defaultTarget.setStyle "bogus").inner.vertices = defaultTarget.inner.vertices ∧
    (defaultTarget.setStyle "bogus").styleVal = "bogus" :=
  C7_unrecognized_style_amended defaultTarget "bogus" (by decide) (by decide)

/-- Claim C6: for every `MovingWindowFilter` (window length at least 1,
as every constructed filter has) and every `add` call that completes,
the window length is unchanged, and if the buffer was full it stays
full, the new buffer being the old one with only its oldest sample
evicted and the new sample appended. -/
theorem C6_sliding_window_invariant (fv : List Rat → Rat)
    (f f' : MovingWindowFilter) (input : AddInput)
    (out : Option (Option DevEvent × Rat)) (hL : 1 ≤ f.length)
    (h : f.add fv input = .ok (f', out)) :
    f'.length = f.length ∧
    (f.buffer.length = f.length →
      f'.buffer.length = f'.length ∧
      f'.buffer = f.buffer.tail ++ [f.inputValue input]) := by
  have happ : ∀ v : Rat, f.buffer.length = f.length →
      ringAppend f.length f.buffer v = f.buffer.tail ++ [v] ∧
      (ringAppend f.length f.buffer v).length = f.length := by
    intro v hfull
    have hnot : ¬ f.buffer.length < f.length := by omega
    refine ⟨by simp [ringAppend, hnot], ?_⟩
    have htl : f.buffer.tail.length = f.length - 1 := by
      rw [List.length_tail, hfull]
    simp [ringAppend, hnot, htl]
    omega
  cases input with
  | inl e =>
    cases hev : f.events with
    | none =>
      simp only [MovingWindowFilter.add, hev] at h
      exact Except.noConfusion h
    | some evs =>
      simp only [MovingWindowFilter.add, hev] at h
      split at h
      all_goals
        simp only [Except.ok.injEq, Prod.mk.injEq] at h
        obtain ⟨hf', -⟩ := h
        subst hf'
        refine ⟨rfl, fun hfull => ?_⟩
        obtain ⟨he, hlen⟩ := happ ((e.get? f.eventFieldIndex).getD 0) hfull
        exact ⟨hlen, by rw [MovingWindowFilter.inputValue, ← he]⟩
  | inr v =>
    simp only [MovingWindowFilter.add] at h
    split at h
    all_goals
      simp only [Except.ok.injEq, Prod.mk.injEq] at h
      obtain ⟨hf', -⟩ := h
      subst hf'
      refine ⟨rfl, fun hfull => ?_⟩
      obtain ⟨he, hlen⟩ := happ v hfull
      exact ⟨hlen, by rw [MovingWindowFilter.inputValue, ← he]⟩

/-- Witness for C6: a full length-1 scalar filter stays full across an
`add` and its buffer slides. -/
theorem C6_sliding_window_invariant_witness :
    (⟨false, 1, 0, 0, [(7 : Rat)], none⟩ : MovingWindowFilter).length =
      (⟨false, 1, 0, 0, [(5 : Rat)], none⟩ : MovingWindowFilter).length ∧
    ((⟨false, 1, 0, 0, [(5 : Rat)], none⟩ : MovingWindowFilter).buffer.length =
        (⟨false, 1, 0, 0, [(5 : Rat)], none⟩ : MovingWindowFilter).length →
      (⟨false, 1, 0, 0, [(7 : Rat)], none⟩ : MovingWindowFilter).buffer.length =
        (⟨false, 1, 0, 0, [(7 : Rat)], none⟩ : MovingWindowFilter).length ∧
      (⟨false, 1, 0, 0, [(7 : Rat)], none⟩ : MovingWindowFilter).buffer =
        (⟨false, 1, 0, 0, [(5 : Rat)], none⟩ : MovingWindowFilter).buffer.tail ++
          [(⟨false, 1, 0, 0, [(5 : Rat)], none⟩ : MovingWindowFilter).inputValue (.inr 7)]) :=
  C6_sliding_window_invariant movingWindowFilteredValue
    ⟨false, 1, 0, 0, [5], none⟩ ⟨false, 1, 0, 0, [7], none⟩ (.inr 7)
    (some (none, movingWindowFilteredValue [7])) (by decide) rfl

/-- Claim C8: `MovingWindowFilter` construction raises exactly on an
invalid `knot_pos` — a symbolic name outside center/latest/oldest,
`center` with an even length, or a numeric index outside `[0, length)` —
and on every valid configuration yields the tap index `center ->
length/2` (floor), `latest -> 0`, `oldest -> length-1`. -/
theorem C8_knot_pos_validation (kp : KnotPos) (L : Nat) :
    ((∃ e, movingWindowActiveIndex kp L = .error e) ↔
      ((∃ s, kp = .str s ∧ s ≠ "center" ∧ s ≠ "latest" ∧ s ≠ "oldest") ∨
       (kp = .str "center" ∧ L % 2 = 0) ∨
       (∃ i, kp = .num i ∧ (i < 0 ∨ (L : Int) ≤ i)))) ∧
    (L % 2 = 1 → movingWindowActiveIndex (.str "center") L = .ok ((L / 2 : Nat) : Int)) ∧
    (movingWindowActiveIndex (.str "latest") L = .ok 0) ∧
    (movingWindowActiveIndex (.str "oldest") L = .ok ((L : Int) - 1)) ∧
    (∀ i : Int, 0 ≤ i → i < (L : Int) →
      movingWindowActiveIndex (.num i) L = .ok i) := by
  refine ⟨?_, ?_, ?_, ?_, ?_⟩
  · cases kp with
    | str s =>
      by_cases hc : s = "center"
      · subst hc
        by_cases he : L % 2 = 0 <;>
          simp [movingWindowActiveIndex, he]
      · by_cases hl : s = "latest"
        · subst hl; simp [movingWindowActiveIndex]
        · by_cases ho : s = "oldest"
          · subst ho; simp [movingWindowActiveIndex]
          · simp [movingWindowActiveIndex, hc, hl, ho]
    | num i =>
      by_cases hrange : i < 0 ∨ (L : Int) ≤ i <;>
        simp [movingWindowActiveIndex, hrange]
  · intro hodd
    have hne : ¬ L % 2 = 0 := by omega
    simp [movingWindowActiveIndex, hne]
  · simp [movingWindowActiveIndex]
  · simp [movingWindowActiveIndex]
  · intro i h0 hlt
    have hne : ¬ (i < 0 ∨ (L : Int) ≤ i) := by omega
    simp [movingWindowActiveIndex, hne]

/-- Witness for C8 at `length = 5`: a centered tap lands on index 2,
and the out-of-range numeric `knot_pos = 7` is a configuration error. -/
theorem C8_knot_pos_validation_witness :
    (5 % 2 = 1 ∧ movingWindowActiveIndex (.str "center") 5 = .ok ((5 / 2 : Nat) : Int)) ∧
    ((0 : Int) ≤ 3 ∧ (3 : Int) < (5 : Nat) ∧
      movingWindowActiveIndex (.num 3) 5 = .ok 3) ∧
    (∃ e, movingWindowActiveIndex (.num 7) 5 = .error e) :=
  ⟨⟨by decide, (C8_knot_pos_validation (.str "center") 5).2.1 (by decide)⟩,
   ⟨by decide, by decide,
     (C8_knot_pos_validation (.num 3) 5).2.2.2.2 3 (by decide) (by decide)⟩,
   (C8_knot_pos_validation (.num 7) 5).1.mpr
     (Or.inr (Or.inr ⟨7, rfl, by decide⟩))⟩

/-- Claim C9: for every `WeightedAverageFilter` (weights with a nonzero
sum, as division by a zero sum is undefined), the window length equals
the number of supplied weights, the stored weights are normalized to sum
to 1, the concrete filter with weights `[1,2,1]` and buffered samples
`[10,20,30]` computes the filtered value `20`, and a scalar `add` emits
an output only when the window is full. -/
theorem C9_weighted_average (ws : List Rat) (hs : ws.sum ≠ 0) :
    weightedAverageLength ws = ws.length ∧
    (weightedAverageWeights ws).sum = 1 ∧
    weightedAverageFilteredValue [1, 2, 1] [10, 20, 30] = 20 ∧
    (∀ (f f' : MovingWindowFilter) (v : Rat) (out : Option (Option DevEvent × Rat)),
      f.length = ws.length →
      MovingWindowFilter.add (weightedAverageFilteredValue ws) f (.inr v) = .ok (f', out) →
      out ≠ none → f'.buffer.length = ws.length) := by
  refine ⟨rfl, ?_, ?_, ?_⟩
  · have hdiv : ∀ (l : List Rat) (c : Rat), (l.map (fun w => w / c)).sum = l.sum / c := by
      intro l c
      induction l with
      | nil => simp
      | cons a t ih => simp [ih, add_div]
    rw [weightedAverageWeights, hdiv, div_self hs]
  · norm_num [weightedAverageFilteredValue, weightedAverageWeights, dotProduct]
  · intro f f' v out hlen h hout
    simp only [MovingWindowFilter.add] at h
    split at h
    · simp only [Except.ok.injEq, Prod.mk.injEq] at h
      obtain ⟨hf', -⟩ := h
      subst hf'
      rename_i hfull
      simp only [ringIsFull, decide_eq_true_eq] at hfull
      simpa [hlen] using hfull
    · simp only [Except.ok.injEq, Prod.mk.injEq] at h
      obtain ⟨-, hnone⟩ := h
      exact absurd hnone.symm hout

/-- Witness for C9 at the spec's example weights `[1, 2, 1]`. -/
theorem C9_weighted_average_witness :
    ([(1 : Rat), 2, 1].sum ≠ 0) ∧
    (weightedAverageWeights [1, 2, 1]).sum = 1 ∧
    weightedAverageFilteredValue [1, 2, 1] [10, 20, 30] = 20 :=
  ⟨by norm_num,
   (C9_weighted_average [1, 2, 1] (by norm_num)).2.1,
   (C9_weighted_average [1, 2, 1] (by norm_num)).2.2.1⟩

/-- Counterexample for Claim C10: constructed with `lineWidth = 2` and
the explicit `innerLineWidth = 0` (a value different from `lineWidth`),
the Python fallback `innerLineWidth or lineWidth` treats `0` as falsy,
so the inner shape's line width is 2 and the serialized
`inner_stroke_width` (also 2) does equal the inner shape's actual stroke
width, contradicting the claim's "never reflects". -/
theorem C10_inner_stroke_width_counterexample :
    ((0 : Rat) ≠ 2) ∧
    zeroInnerLineWidthTarget.inner.lineWidth = 2 ∧
    ("inner_stroke_width", TargetStim.FieldVal.num zeroInnerLineWidthTarget.inner.lineWidth)
      ∈ zeroInnerLineWidthTarget.toPairs := by
  refine ⟨by norm_num, ?_, ?_⟩ <;>
    simp [zeroInnerLineWidthTarget, TargetStim.init, TargetStim.setStyle,
      TargetStim.pyOrLineWidth, TargetStim.toPairs]

/-- Claim C10 as amended (restricted to a truthy `innerLineWidth`): for
every `TargetStim` constructed with an `innerLineWidth` that is not
`None` and not `0` and differs from `lineWidth`, iteration yields an
`inner_stroke_width` equal to the outer shape's line width, while the
inner shape's actual line width is `innerLineWidth`, and no
`inner_stroke_width` entry carries the inner shape's actual value. -/
theorem C10_inner_stroke_width_amended (style : String) (r ir lw w : Rat)
    (fc bc ifc ibc : Option String) (h0 : w ≠ 0) (hne : w ≠ lw) :
    ("inner_stroke_width", TargetStim.FieldVal.num lw)
      ∈ (TargetStim.init style r fc bc lw ir ifc ibc (some w)).toPairs ∧
    (TargetStim.init style r fc bc lw ir ifc ibc (some w)).inner.lineWidth = w ∧
    ("inner_stroke_width",
        TargetStim.FieldVal.num
          ((TargetStim.init style r fc bc lw ir ifc ibc (some w)).inner.lineWidth))
      ∉ (TargetStim.init style r fc bc lw ir ifc ibc (some w)).toPairs := by
  have houter : (TargetStim.init style r fc bc lw ir ifc ibc (some w)).outer.lineWidth = lw := by
    unfold TargetStim.init TargetStim.setStyle
    split
    · rfl
    · split <;> rfl
  have hinner : (TargetStim.init style r fc bc lw ir ifc ibc (some w)).inner.lineWidth = w := by
    unfold TargetStim.init TargetStim.setStyle
    split
    · simp [TargetStim.pyOrLineWidth, h0]
    · split <;> simp [TargetStim.pyOrLineWidth, h0]
  refine ⟨?_, hinner, ?_⟩
  · simp [TargetStim.toPairs, houter]
  · rw [hinner]
    simp [TargetStim.toPairs, houter, hne]

/-- Witness for the amended C10 with `lineWidth = 2` and
`innerLineWidth = 1`. -/
theorem C10_inner_stroke_width_amended_witness :
    ((1 : Rat) ≠ 0) ∧ ((1 : Rat) ≠ 2) ∧
    ("inner_stroke_width", TargetStim.FieldVal.num 2)
      ∈ (TargetStim.init "circles" (1/20) none (some "white") 2 (1/100)
          (some "red") none (some 1)).toPairs ∧
    (TargetStim.init "circles" (1/20) none (some "white") 2 (1/100)
        (some "red") none (some 1)).inner.lineWidth = 1 :=
  ⟨by norm_num, by norm_num,
   (C10_inner_stroke_width_amended "circles" (1/20) (1/100) 2 1 none
      (some "white") (some "red") none (by norm_num) (by norm_num)).1,
   (C10_inner_stroke_width_amended "circles" (1/20) (1/100) 2 1 none
      (some "white") (some "red") none (by norm_num) (by norm_num)).2.1⟩

end PsychoPy
